import Mathlib

/-!
# PoseSubscriber: waypoint recording and sequencing

A shallow embedding of `src/pose_subscriber.cpp`.  The node's member variables
become the fields of `Node`; each member function becomes a function on `Node`
returning the new node together with the externally visible actions it
performed (blocking sleeps, goals handed to the action client, shutdown).
Reading `saved_pose_list_[i]` outside the vector is undefined behaviour in the
source and is the fault `IndexOutOfRange` here.

`F` stands for the C++ type `float` (the stored poses) and `D` for `double`
(the message fields); `narrow : D → F` is the implicit conversion performed by
the assignments in `listenerCallback`.  Nothing in the node computes with these
values, so they stay abstract.  Logging and terminal handling are not modelled.
-/

namespace PoseSubscriber

/-! ## Data model -/

/-- Struct to store the pose data (x, y, z). -/
structure Pose (F : Type) where
  x : F
  y : F
  z : F
deriving DecidableEq, Repr

/-- Struct to store the orientation data (x, y, z, w). -/
structure Orientation (F : Type) where
  x : F
  y : F
  z : F
  w : F
deriving DecidableEq, Repr

/-- Position part of a `geometry_msgs` pose message. -/
structure Point (D : Type) where
  x : D
  y : D
  z : D
deriving DecidableEq, Repr

/-- Orientation part of a `geometry_msgs` pose message. -/
structure Quaternion (D : Type) where
  x : D
  y : D
  z : D
  w : D
deriving DecidableEq, Repr

/-- The `pose` field of a stamped pose message. -/
structure PoseMsg (D : Type) where
  position : Point D
  orientation : Quaternion D
deriving DecidableEq, Repr

/-- The part of `geometry_msgs::msg::PoseStamped` read by the node. -/
structure PoseStamped (D : Type) where
  pose : PoseMsg D
deriving DecidableEq, Repr

/-- Result codes of `rclcpp_action::ResultCode`. -/
inductive ResultCode where
  | UNKNOWN
  | SUCCEEDED
  | CANCELED
  | ABORTED
deriving DecidableEq, Repr

/-- Faults of the embedding: a vector read outside its bounds. -/
inductive Fault where
  | IndexOutOfRange
deriving DecidableEq, Repr

/-- Externally visible actions performed by the node, in program order. -/
inductive Action (F : Type) where
  /-- Blocking `sleep(secs)`. -/
  | sleep (secs : Nat)
  /-- The call `async_send_goal(goal_msg, ...)` issued by `send_goal` for the waypoint at
  `index`; `position` and `orientation` are the values copied into the goal message. -/
  | async_send_goal (index : Nat) (position : Pose F) (orientation : Orientation F)
  /-- The call `rclcpp::shutdown()`. -/
  | shutdown
deriving DecidableEq, Repr

/-- Class member variables of `PoseSubscriber` (the action client and the timer carry no
state of their own here). -/
structure Node (F : Type) where
  /-- Whether `subscription_` still holds the `/odom` subscription. -/
  subscription_ : Bool
  saved_pose_list_ : List (Pose F)
  saved_orientation_list_ : List (Orientation F)
  current_pose_ : Pose F
  current_orientation_ : Orientation F
  head_pose_index_ : Nat
  first_pose8_ : Bool
deriving DecidableEq, Repr

/-- Events delivered to the node by the executor. -/
inductive Event (D : Type) where
  /-- A message on `/odom`. -/
  | odom (msg : PoseStamped D)
  /-- An expiry of the one-second wall timer at which `getch()` returned `ch`. -/
  | timer (ch : Int)
  /-- A wrapped result reported by the action client for a goal sent earlier. -/
  | result (code : ResultCode)
deriving DecidableEq, Repr

/-! ## Constants -/

/-- Number of values of `size_t` (64 bits). -/
def SIZE_T_MOD : Nat := 18446744073709551616

/-- The ncurses value `ERR` returned by `getch()` when no key is waiting. -/
def ERR : Int := -1

/-- Character code of the key s. -/
def KEY_s : Int := 115

/-- Character code of the key r. -/
def KEY_r : Int := 114

/-- Character code of the key q. -/
def KEY_q : Int := 113

/-! ## Member functions -/

section Code

variable {F D : Type}

/-- The member initialisers: `head_pose_index_{0}`, `first_pose8_ = false`, empty vectors, and
the subscription created by the constructor.  `current_pose_` and `current_orientation_` have
no initialiser; `p0` and `o0` are whatever they hold. -/
def init (p0 : Pose F) (o0 : Orientation F) : Node F :=
  { subscription_ := true
    saved_pose_list_ := []
    saved_orientation_list_ := []
    current_pose_ := p0
    current_orientation_ := o0
    head_pose_index_ := 0
    first_pose8_ := false }

/-- The node method `send_goal`: builds the goal from `saved_pose_list_[head_pose_index_]` and
`saved_orientation_list_[head_pose_index_]` and hands it to the action client.  The action
server is taken to be available, so the waiting loop ends. -/
def send_goal (s : Node F) : Except Fault (Node F × List (Action F)) :=
  match s.saved_pose_list_[s.head_pose_index_]?,
        s.saved_orientation_list_[s.head_pose_index_]? with
  | some p, some o => .ok (s, [Action.async_send_goal s.head_pose_index_ p o])
  | _, _ => .error Fault.IndexOutOfRange

/-- The node method `listenerCallback`: overwrites the cached pose and orientation. -/
def listenerCallback (narrow : D → F) (s : Node F) (msg : PoseStamped D) : Node F :=
  { s with
    current_pose_ :=
      { x := narrow msg.pose.position.x
        y := narrow msg.pose.position.y
        z := narrow msg.pose.position.z }
    current_orientation_ :=
      { x := narrow msg.pose.orientation.x
        y := narrow msg.pose.orientation.y
        z := narrow msg.pose.orientation.z
        w := narrow msg.pose.orientation.w } }

/-- The node method `savePose`: two `push_back` calls. -/
def savePose (s : Node F) : Node F :=
  { s with
    saved_pose_list_ := s.saved_pose_list_ ++ [s.current_pose_]
    saved_orientation_list_ := s.saved_orientation_list_ ++ [s.current_orientation_] }

/-- Runs `send_goal` after the actions `pre` already performed in the same callback. -/
def thenSendGoal (pre : List (Action F)) (s : Node F) :
    Except Fault (Node F × List (Action F)) :=
  match send_goal s with
  | .ok (s1, acts) => .ok (s1, pre ++ acts)
  | .error f => .error f

/-- The node method `result_callback`.  `head_pose_index_++` and `size() - 1` are `size_t`
operations and wrap modulo `SIZE_T_MOD`. -/
def result_callback (s : Node F) (code : ResultCode) :
    Except Fault (Node F × List (Action F)) :=
  match code with
  | .SUCCEEDED =>
    if s.head_pose_index_ = 6 then
      thenSendGoal [Action.sleep 5]
        { s with head_pose_index_ := (s.head_pose_index_ + 1) % SIZE_T_MOD }
    else if s.head_pose_index_ = 8 ∧ s.first_pose8_ = false then
      thenSendGoal [Action.sleep 2]
        { s with
          first_pose8_ := true
          head_pose_index_ := (s.head_pose_index_ + 1) % SIZE_T_MOD }
    else if s.saved_pose_list_.length = 1 then
      .ok (s, [])
    else if s.head_pose_index_ < (s.saved_pose_list_.length + SIZE_T_MOD - 1) % SIZE_T_MOD then
      thenSendGoal [] { s with head_pose_index_ := (s.head_pose_index_ + 1) % SIZE_T_MOD }
    else if s.saved_pose_list_.length > 9 then
      thenSendGoal [] { s with head_pose_index_ := 8 }
    else
      thenSendGoal [] { s with head_pose_index_ := 0 }
  | .ABORTED => .ok (s, [])
  | .CANCELED => .ok (s, [])
  | .UNKNOWN => .ok (s, [])

/-- The node method `handleKeyboardInput`. -/
def handleKeyboardInput (s : Node F) (ch : Int) : Except Fault (Node F × List (Action F)) :=
  if ch = KEY_s then
    .ok (savePose s, [])
  else if ch = KEY_r then
    if s.saved_pose_list_.length > 0 then
      send_goal { s with subscription_ := false }
    else
      .ok (s, [])
  else if ch = KEY_q then
    .ok (s, [Action.shutdown])
  else
    .ok (s, [])

/-- One callback invocation, as wired up by the constructor: the `/odom` subscription calls
`listenerCallback` while it exists, the timer calls `handleKeyboardInput` when `getch()` did
not return `ERR`, and the goal options route results to `result_callback`. -/
def dispatch (narrow : D → F) (s : Node F) (e : Event D) :
    Except Fault (Node F × List (Action F)) :=
  match e with
  | .odom msg => if s.subscription_ then .ok (listenerCallback narrow s msg, []) else .ok (s, [])
  | .timer ch => if ch ≠ ERR then handleKeyboardInput s ch else .ok (s, [])
  | .result code => result_callback s code

/-- The single-threaded executor: callbacks run one after another; the actions are collected
in order.  A fault ends the run.  A shutdown is recorded as an action; events listed after it
are still dispatched, so the runs covered include every run of the executor. -/
def run (narrow : D → F) (s : Node F) : List (Event D) → Except Fault (Node F × List (Action F))
  | [] => .ok (s, [])
  | e :: es =>
    match dispatch narrow s e with
    | .error f => .error f
    | .ok (s1, a1) =>
      match run narrow s1 es with
      | .error f => .error f
      | .ok (s2, a2) => .ok (s2, a1 ++ a2)

end Code

/-! ## Observations on action traces -/

section Observations

variable {F D : Type}

/-- The waypoint index of a goal, if the action is a goal. -/
def Action.goalIndex : Action F → Option Nat
  | .async_send_goal i _ _ => some i
  | _ => none

/-- The duration of a sleep, if the action is a sleep. -/
def Action.pauseSecs : Action F → Option Nat
  | .sleep n => some n
  | _ => none

/-- The waypoint indices of the goals sent, in order. -/
def sentIndices (tr : List (Action F)) : List Nat :=
  tr.filterMap Action.goalIndex

/-- The durations of the sleeps, in order. -/
def pauses (tr : List (Action F)) : List Nat :=
  tr.filterMap Action.pauseSecs

/-- The key press that starts the sequence. -/
def startKey : Event D := Event.timer KEY_r

/-- The key press that records a waypoint. -/
def recordKey : Event D := Event.timer KEY_s

/-- A successful navigation result. -/
def succeeded : Event D := Event.result ResultCode.SUCCEEDED

/-- Whether the event is the key press that starts the sequence. -/
def Event.isStart : Event D → Bool
  | .timer ch => ch == KEY_r
  | _ => false

/-- Whether the event is the key press that records a waypoint. -/
def Event.isRecord : Event D → Bool
  | .timer ch => ch == KEY_s
  | _ => false

/-- Whether the event is a navigation result. -/
def Event.isResult : Event D → Bool
  | .result _ => true
  | _ => false

/-- Whether the event belongs to the recording phase: a pose sample or a record key. -/
def Event.isRecording : Event D → Bool
  | .odom _ => true
  | .timer ch => ch == KEY_s
  | .result _ => false

/-- Whether the event belongs to playback: a start key or a navigation result. -/
def Event.isPlayback : Event D → Bool
  | .odom _ => false
  | .timer ch => ch == KEY_r
  | .result _ => true

/-- Number of record key presses among the events. -/
def recordCount (es : List (Event D)) : Nat :=
  (es.filter Event.isRecord).length

/-- Actions without the goal payload. -/
inductive Kind where
  | pause (secs : Nat)
  | goal (index : Nat)
  | quit
deriving DecidableEq, Repr

/-- The kind of an action. -/
def Action.kind : Action F → Kind
  | .sleep n => Kind.pause n
  | .async_send_goal i _ _ => Kind.goal i
  | .shutdown => Kind.quit

/-- The recorded positions after the events, when the run does not fault. -/
def storedAfter (narrow : D → F) (s : Node F) (es : List (Event D)) : Option (List (Pose F)) :=
  match run narrow s es with
  | .ok (s1, _) => some s1.saved_pose_list_
  | .error _ => none

/-- Goals sent and not yet resolved after one more callback: the goals the callback sent are
added to `pending`, and a result event resolves one goal. -/
def outstandingAfter (pending : Int) (e : Event D) (acts : List (Action F)) : Int :=
  pending + (sentIndices acts).length - (if e.isResult then 1 else 0)

/-- The number of outstanding goals after each event of a run that starts with `pending`
outstanding goals.  The list ends where the run faults. -/
def outstandingHistory (narrow : D → F) (s : Node F) (pending : Int) :
    List (Event D) → List Int
  | [] => []
  | e :: es =>
    match dispatch narrow s e with
    | .error _ => []
    | .ok (s1, a1) =>
      outstandingAfter pending e a1 ::
        outstandingHistory narrow s1 (outstandingAfter pending e a1) es

/-- Discipline of the environment along a run: a start key arrives only while no goal is
outstanding, and a result arrives only for a goal that is outstanding. -/
def wellPaced (narrow : D → F) (s : Node F) (pending : Int) : List (Event D) → Bool
  | [] => true
  | e :: es =>
    (!e.isStart || pending == 0) && (!e.isResult || decide (1 ≤ pending)) &&
      match dispatch narrow s e with
      | .error _ => true
      | .ok (s1, a1) => wellPaced narrow s1 (outstandingAfter pending e a1) es

/-- The index of the k-th goal of an all-successful run over ten waypoints, in the words of
the specification: 0 to 9 in order, then 8 and 9 alternating. -/
def index10 (k : Nat) : Nat :=
  if k < 10 then k else if k % 2 = 0 then 8 else 9

/-- What the j-th success of an all-successful run over ten waypoints triggers, in the words
of the specification: a five second pause after index 6, a two second pause after the first
visit of index 8, and the next goal. -/
def leg10 (j : Nat) : List Kind :=
  if j = 6 then [Kind.pause 5, Kind.goal 7]
  else if j = 8 then [Kind.pause 2, Kind.goal 9]
  else [Kind.goal (index10 (j + 1))]

/-- The whole trace of a start followed by m successes over ten waypoints, in the words of the
specification. -/
def trace10 : Nat → List Kind
  | 0 => [Kind.goal 0]
  | m + 1 => trace10 m ++ leg10 m

/-- The indices of the goals sent during the events, when the run does not fault. -/
def sentAfter (narrow : D → F) (s : Node F) (es : List (Event D)) : Option (List Nat) :=
  match run narrow s es with
  | .ok (_, tr) => some (sentIndices tr)
  | .error _ => none

end Observations

/-! ## Concrete sessions -/

section Samples

/-- Contents of the position cache used in the concrete sessions. -/
def samplePose : Pose Int := ⟨1, 2, 0⟩

/-- Contents of the orientation cache used in the concrete sessions. -/
def sampleOrientation : Orientation Int := ⟨0, 0, 0, 1⟩

/-- A freshly constructed node whose caches hold the sample values. -/
def sampleNode : Node Int := init samplePose sampleOrientation

/-- The operator presses the record key n times. -/
def records (n : Nat) : List (Event Int) := List.replicate n recordKey

/-- The navigation stack reports n successes. -/
def successes (n : Nat) : List (Event Int) := List.replicate n succeeded

/-- A pose sample at position (x, y, 0) with orientation (0, 0, z, w). -/
def poseSample (x y z w : Int) : Event Int :=
  Event.odom ⟨⟨⟨x, y, 0⟩, ⟨0, 0, z, w⟩⟩⟩

/-- A recording session: one waypoint from the initial cache, then a pose sample. -/
def firstSession : List (Event Int) := [recordKey, poseSample 3 4 1 0]

/-- A later recording session: a waypoint, another pose sample, another waypoint. -/
def secondSession : List (Event Int) := [recordKey, poseSample 5 6 0 1, recordKey]

/-- A whole session: two waypoints, a start, two successes, an aborted goal, a restart. -/
def pacedSession : List (Event Int) :=
  records 2 ++ [startKey, succeeded, succeeded, Event.result ResultCode.ABORTED, startKey]

end Samples


end PoseSubscriber
namespace PoseSubscriber
section Lemmas
variable {F D : Type}

theorem run_nil (narrow : D → F) (s : Node F) : run narrow s [] = .ok (s, []) := rfl

theorem run_cons (narrow : D → F) (s : Node F) (e : Event D) (es : List (Event D)) :
    run narrow s (e :: es) =
      match dispatch narrow s e with
      | .error f => .error f
      | .ok (s1, a1) =>
        match run narrow s1 es with
        | .error f => .error f
        | .ok (s2, a2) => .ok (s2, a1 ++ a2) := rfl

theorem run_append (narrow : D → F) (s : Node F) (es1 es2 : List (Event D)) :
    run narrow s (es1 ++ es2) =
      match run narrow s es1 with
      | .error f => .error f
      | .ok (s1, a1) =>
        match run narrow s1 es2 with
        | .error f => .error f
        | .ok (s2, a2) => .ok (s2, a1 ++ a2) := by
  induction es1 generalizing s with
  | nil =>
    rw [List.nil_append, run_nil]
    cases h : run narrow s es2 with
    | error f => simp [h]
    | ok r => simp [h]
  | cons e es ih =>
    rw [List.cons_append, run_cons, run_cons]
    cases hd : dispatch narrow s e with
    | error f => rfl
    | ok r =>
      obtain ⟨s1, a1⟩ := r
      simp only [ih]
      cases h1 : run narrow s1 es with
      | error f => rfl
      | ok r1 =>
        obtain ⟨s2, a2⟩ := r1
        simp only
        cases h2 : run narrow s2 es2 with
        | error f => rfl
        | ok r2 => simp [List.append_assoc]

theorem run_single (narrow : D → F) (s : Node F) (e : Event D) :
    run narrow s [e] = 
      match dispatch narrow s e with
      | .error f => .error f
      | .ok (s1, a1) => .ok (s1, a1) := by
  rw [run_cons]
  cases dispatch narrow s e with
  | error f => rfl
  | ok r => simp [run_nil]

theorem send_goal_of_lt (s : Node F)
    (hp : s.head_pose_index_ < s.saved_pose_list_.length)
    (ho : s.head_pose_index_ < s.saved_orientation_list_.length) :
    ∃ p o, send_goal s = .ok (s, [Action.async_send_goal s.head_pose_index_ p o]) := by
  refine ⟨s.saved_pose_list_[s.head_pose_index_],
    s.saved_orientation_list_[s.head_pose_index_], ?_⟩
  simp [send_goal, List.getElem?_eq_getElem hp, List.getElem?_eq_getElem ho]

end Lemmas
end PoseSubscriber
namespace PoseSubscriber
section Lemmas2
variable {F D : Type}

theorem send_goal_inv {s s1 : Node F} {a : List (Action F)} (h : send_goal s = .ok (s1, a)) :
    s1 = s ∧ ∃ p o, a = [Action.async_send_goal s.head_pose_index_ p o] ∧
      s.saved_pose_list_[s.head_pose_index_]? = some p ∧
      s.saved_orientation_list_[s.head_pose_index_]? = some o := by
  unfold send_goal at h
  split at h
  · rename_i p o hp ho
    simp only [Except.ok.injEq, Prod.mk.injEq] at h
    exact ⟨h.1.symm, p, o, h.2.symm, hp, ho⟩
  · simp at h

theorem thenSendGoal_inv {pre : List (Action F)} {s s1 : Node F} {a : List (Action F)}
    (h : thenSendGoal pre s = .ok (s1, a)) :
    s1 = s ∧ ∃ p o, a = pre ++ [Action.async_send_goal s.head_pose_index_ p o] ∧
      s.saved_pose_list_[s.head_pose_index_]? = some p ∧
      s.saved_orientation_list_[s.head_pose_index_]? = some o := by
  unfold thenSendGoal at h
  split at h
  · rename_i s2 acts hs
    simp only [Except.ok.injEq, Prod.mk.injEq] at h
    obtain ⟨h1, p, o, h2, h3, h4⟩ := send_goal_inv hs
    exact ⟨h.1 ▸ h1, p, o, by rw [← h.2, h2], h3, h4⟩
  · simp at h

theorem thenSendGoal_of_lt (pre : List (Action F)) (s : Node F)
    (hp : s.head_pose_index_ < s.saved_pose_list_.length)
    (ho : s.head_pose_index_ < s.saved_orientation_list_.length) :
    ∃ p o, thenSendGoal pre s = .ok (s, pre ++ [Action.async_send_goal s.head_pose_index_ p o]) := by
  obtain ⟨p, o, h⟩ := send_goal_of_lt s hp ho
  exact ⟨p, o, by simp [thenSendGoal, h]⟩

theorem sentIndices_append (a b : List (Action F)) :
    sentIndices (a ++ b) = sentIndices a ++ sentIndices b := by
  simp [sentIndices]

/-- What a result callback can change: only the index and the flag; and it sends at most one
goal, for the index it leaves behind. -/
theorem result_callback_frame {s s1 : Node F} {code : ResultCode} {a : List (Action F)}
    (h : result_callback s code = .ok (s1, a)) :
    s1.saved_pose_list_ = s.saved_pose_list_ ∧
    s1.saved_orientation_list_ = s.saved_orientation_list_ ∧
    s1.current_pose_ = s.current_pose_ ∧
    s1.current_orientation_ = s.current_orientation_ ∧
    s1.subscription_ = s.subscription_ ∧
    (sentIndices a = [] ∨ sentIndices a = [s1.head_pose_index_]) := by
  unfold result_callback at h
  cases code
  case SUCCEEDED =>
    simp only at h
    split_ifs at h
    all_goals first
      | (obtain ⟨rfl, p, o, rfl, -, -⟩ := thenSendGoal_inv h
         simp [sentIndices, Action.goalIndex])
      | (simp only [Except.ok.injEq, Prod.mk.injEq] at h
         obtain ⟨rfl, rfl⟩ := h
         simp [sentIndices])
  all_goals
    simp only [Except.ok.injEq, Prod.mk.injEq] at h
    obtain ⟨rfl, rfl⟩ := h
    simp [sentIndices]

/-- What a key press can change: a record key appends the cache to the store, a start key
drops the subscription; at most one goal is sent, and only by a start key. -/
theorem handleKeyboardInput_frame {s s1 : Node F} {ch : Int} {a : List (Action F)}
    (h : handleKeyboardInput s ch = .ok (s1, a)) :
    s1.current_pose_ = s.current_pose_ ∧
    s1.current_orientation_ = s.current_orientation_ ∧
    s1.head_pose_index_ = s.head_pose_index_ ∧
    s1.first_pose8_ = s.first_pose8_ ∧
    (ch = KEY_s → s1 = savePose s ∧ a = []) ∧
    (ch ≠ KEY_s → s1.saved_pose_list_ = s.saved_pose_list_ ∧
      s1.saved_orientation_list_ = s.saved_orientation_list_) ∧
    (ch ≠ KEY_r → s1.subscription_ = s.subscription_ ∧ sentIndices a = []) ∧
    (sentIndices a = [] ∨ sentIndices a = [s1.head_pose_index_]) := by
  unfold handleKeyboardInput at h
  split_ifs at h with h1 h2 h3 h4
  · simp only [Except.ok.injEq, Prod.mk.injEq] at h
    obtain ⟨rfl, rfl⟩ := h
    simp [savePose, sentIndices, h1]
  · obtain ⟨rfl, p, o, rfl, -, -⟩ := send_goal_inv h
    simp [sentIndices, Action.goalIndex, h2, KEY_r, KEY_s]
  · simp only [Except.ok.injEq, Prod.mk.injEq] at h
    obtain ⟨rfl, rfl⟩ := h
    simp [sentIndices, h1]
  · simp only [Except.ok.injEq, Prod.mk.injEq] at h
    obtain ⟨rfl, rfl⟩ := h
    simp [sentIndices, Action.goalIndex, h1]
  · simp only [Except.ok.injEq, Prod.mk.injEq] at h
    obtain ⟨rfl, rfl⟩ := h
    simp [sentIndices, h1]

end Lemmas2
end PoseSubscriber
namespace PoseSubscriber
section Lemmas3
variable {F D : Type}

/-- What one callback can do to the store, the cache and the subscription, and how many goals
it can send. -/
theorem dispatch_frame {narrow : D → F} {s s1 : Node F} {e : Event D} {a : List (Action F)}
    (h : dispatch narrow s e = .ok (s1, a)) :
    (e.isRecord = true → s1 = savePose s ∧ a = []) ∧
    (e.isRecord = false → s1.saved_pose_list_ = s.saved_pose_list_ ∧
      s1.saved_orientation_list_ = s.saved_orientation_list_) ∧
    (s.subscription_ = false → s1.subscription_ = false ∧
      s1.current_pose_ = s.current_pose_ ∧ s1.current_orientation_ = s.current_orientation_) ∧
    (e.isStart = false → e.isResult = false → sentIndices a = []) ∧
    (sentIndices a = [] ∨ sentIndices a = [s1.head_pose_index_]) := by
  cases e with
  | odom msg =>
    simp only [dispatch] at h
    split_ifs at h with hs
    · simp only [Except.ok.injEq, Prod.mk.injEq] at h
      obtain ⟨rfl, rfl⟩ := h
      simp [Event.isRecord, listenerCallback, sentIndices, hs]
    · simp only [Except.ok.injEq, Prod.mk.injEq] at h
      obtain ⟨rfl, rfl⟩ := h
      simp [Event.isRecord, sentIndices]
  | timer ch =>
    simp only [dispatch] at h
    split_ifs at h with hc
    · obtain ⟨h1, h2, h3, h4, h5, h6, h7, h8⟩ := handleKeyboardInput_frame h
      refine ⟨?_, ?_, ?_, ?_, h8⟩
      · intro hr
        exact h5 (by simpa [Event.isRecord] using hr)
      · intro hr
        exact h6 (by simpa [Event.isRecord] using hr)
      · intro hsub
        refine ⟨?_, h1, h2⟩
        by_cases hk : ch = KEY_s
        · rw [(h5 hk).1]
          simpa [savePose] using hsub
        · by_cases hr : ch = KEY_r
          · subst hr
            unfold handleKeyboardInput at h
            simp only [hk, if_false, if_true] at h
            split_ifs at h
            · obtain ⟨rfl, -⟩ := send_goal_inv h
              rfl
            · simp only [Except.ok.injEq, Prod.mk.injEq] at h
              rw [← h.1]
              exact hsub
          · rw [(h7 hr).1]
            exact hsub
      · intro hst _
        exact (h7 (by simpa [Event.isStart] using hst)).2
    · simp only [Except.ok.injEq, Prod.mk.injEq] at h
      obtain ⟨rfl, rfl⟩ := h
      have : ch = ERR := by simpa using hc
      subst this
      simp [Event.isRecord, sentIndices, ERR, KEY_s, savePose]
  | result code =>
    simp only [dispatch] at h
    obtain ⟨h1, h2, h3, h4, h5, h6⟩ := result_callback_frame h
    refine ⟨?_, ?_, ?_, ?_, h6⟩
    · intro hr
      simp [Event.isRecord] at hr
    · intro _
      exact ⟨h1, h2⟩
    · intro hsub
      exact ⟨by rw [h5, hsub], h3, h4⟩
    · intro _ hres
      simp [Event.isResult] at hres

end Lemmas3
end PoseSubscriber
namespace PoseSubscriber
section Claims1
variable {F D : Type}

/-- C7: for every state and every result code other than SUCCEEDED, `result_callback` returns
normally, performs no action (no goal, no pause) and leaves the whole node, in particular the
index, the flag and the recorded waypoints, as it was. -/
theorem failed_result_halts (s : Node F) (code : ResultCode)
    (h : code ≠ ResultCode.SUCCEEDED) :
    result_callback s code = .ok (s, []) := by
  cases code with
  | SUCCEEDED => exact absurd rfl h
  | UNKNOWN => rfl
  | CANCELED => rfl
  | ABORTED => rfl

theorem failed_result_halts_witness :
    ResultCode.ABORTED ≠ ResultCode.SUCCEEDED ∧
    result_callback sampleNode ResultCode.ABORTED = .ok (sampleNode, []) :=
  ⟨by decide, failed_result_halts sampleNode ResultCode.ABORTED (by decide)⟩

/-- C5, as stated, fails: on a freshly constructed node that never received a pose sample, the
record key returns normally and the store grows from empty to one waypoint. -/
theorem record_before_pose_appends :
    dispatch (fun d : Int => d) sampleNode recordKey = .ok (savePose sampleNode, []) ∧
    (savePose sampleNode).saved_pose_list_ = [samplePose] ∧
    (savePose sampleNode).saved_pose_list_ ≠ sampleNode.saved_pose_list_ := by
  refine ⟨rfl, rfl, ?_⟩
  decide

/-- C5, amended: `savePose` has no failure path.  Whatever the caches hold, also when no pose
sample was ever delivered, the record key returns normally, sends nothing, and appends exactly
the cached position and the cached orientation to the two recorded lists. -/
theorem record_always_appends (narrow : D → F) (s : Node F) :
    dispatch narrow s recordKey = .ok (savePose s, []) ∧
    (savePose s).saved_pose_list_ = s.saved_pose_list_ ++ [s.current_pose_] ∧
    (savePose s).saved_orientation_list_ =
      s.saved_orientation_list_ ++ [s.current_orientation_] :=
  ⟨rfl, rfl, rfl⟩

/-- C1, at the failing inputs: with seven recorded waypoints the seventh success moves the
index from 6 to 7 and `send_goal` reads outside the vectors; with nine recorded waypoints the
ninth success moves it from 8 to 9 with the same effect.  One success earlier both runs are
still in range. -/
theorem index_out_of_range_at_sizes_7_and_9 :
    sentAfter (fun d : Int => d) sampleNode (records 7 ++ startKey :: successes 6) =
      some [0, 1, 2, 3, 4, 5, 6] ∧
    run (fun d : Int => d) sampleNode (records 7 ++ startKey :: successes 7) =
      .error Fault.IndexOutOfRange ∧
    sentAfter (fun d : Int => d) sampleNode (records 9 ++ startKey :: successes 8) =
      some [0, 1, 2, 3, 4, 5, 6, 7, 8] ∧
    run (fun d : Int => d) sampleNode (records 9 ++ startKey :: successes 9) =
      .error Fault.IndexOutOfRange :=
  ⟨rfl, rfl, rfl, rfl⟩

/-- C3, at the failing input: two waypoints are recorded, the sequence is started, the first
goal succeeds and the second is aborted; the next start key sends the goal for waypoint 1
again, not for waypoint 0. -/
theorem restart_resumes_at_failed_index :
    sentAfter (fun d : Int => d) sampleNode
        (records 2 ++ [startKey, succeeded, Event.result ResultCode.ABORTED]) = some [0, 1] ∧
    sentAfter (fun d : Int => d) sampleNode
        (records 2 ++ [startKey, succeeded, Event.result ResultCode.ABORTED, startKey]) =
      some [0, 1, 1] :=
  ⟨rfl, rfl⟩

/-- C4, as stated, fails: after one waypoint is recorded, two start keys in a row send two
goals and no result has arrived, so two goals are outstanding. -/
theorem second_start_sends_second_goal :
    outstandingHistory (fun d : Int => d) sampleNode 0 [recordKey, startKey, startKey] =
      [0, 1, 2] ∧
    ¬ ∀ c ∈ outstandingHistory (fun d : Int => d) sampleNode 0 [recordKey, startKey, startKey],
        c ≤ 1 := by
  refine ⟨rfl, ?_⟩
  decide

theorem outstanding_le_one_aux (narrow : D → F) (es : List (Event D)) :
    ∀ (s : Node F) (pending : Int), 0 ≤ pending → pending ≤ 1 →
      wellPaced narrow s pending es = true →
      ∀ c ∈ outstandingHistory narrow s pending es, 0 ≤ c ∧ c ≤ 1 := by
  induction es with
  | nil => intro s pending _ _ _ c hc; simp [outstandingHistory] at hc
  | cons e es ih =>
    intro s pending h0 h1 hw c hc
    simp only [wellPaced, Bool.and_eq_true, Bool.or_eq_true, Bool.not_eq_true',
      beq_iff_eq, decide_eq_true_eq] at hw
    obtain ⟨⟨hstart, hres⟩, hrest⟩ := hw
    simp only [outstandingHistory] at hc
    cases hd : dispatch narrow s e with
    | error f => simp [hd] at hc
    | ok r =>
      obtain ⟨s1, a1⟩ := r
      simp only [hd, List.mem_cons] at hc hrest
      obtain ⟨-, -, -, hzero, hone⟩ := dispatch_frame hd
      have hlen : (sentIndices a1).length ≤ 1 := by
        rcases hone with h | h <;> simp [h]
      have hbound : 0 ≤ outstandingAfter pending e a1 ∧ outstandingAfter pending e a1 ≤ 1 := by
        unfold outstandingAfter
        cases hr : e.isResult with
        | true =>
          have hp : 1 ≤ pending := by simpa [hr] using hres
          simp only [if_true]
          omega
        | false =>
          cases hs : e.isStart with
          | true =>
            have hp : pending = 0 := by simpa [hs] using hstart
            simp only [Bool.false_eq_true, if_false]
            omega
          | false =>
            have := hzero hs hr
            simp only [this, List.length_nil, Bool.false_eq_true, if_false]
            omega
      rcases hc with rfl | hc
      · exact hbound
      · exact ih s1 _ hbound.1 hbound.2 hrest c hc

/-- C4, amended: the node has no guard of its own, so the bound rests on the environment.
Along every run of key presses, pose samples and results in which a start key arrives
only while no goal is outstanding, and a result only for an outstanding goal, the number of
goals sent and not yet resolved is at most 1 after every event. -/
theorem outstanding_le_one_when_paced (narrow : D → F) (s : Node F) (es : List (Event D))
    (h : wellPaced narrow s 0 es = true) :
    ∀ c ∈ outstandingHistory narrow s 0 es, 0 ≤ c ∧ c ≤ 1 :=
  outstanding_le_one_aux narrow es s 0 (le_refl 0) (by decide) h

theorem outstanding_le_one_when_paced_witness :
    wellPaced (fun d : Int => d) sampleNode 0 pacedSession = true ∧
    ∀ c ∈ outstandingHistory (fun d : Int => d) sampleNode 0 pacedSession, 0 ≤ c ∧ c ≤ 1 :=
  ⟨by decide,
   outstanding_le_one_when_paced (fun d : Int => d) sampleNode pacedSession (by decide)⟩

end Claims1
end PoseSubscriber
namespace PoseSubscriber
section Claims2
variable {F D : Type}

theorem recordCount_cons (e : Event D) (es : List (Event D)) :
    recordCount (e :: es) = (if e.isRecord then 1 else 0) + recordCount es := by
  unfold recordCount
  cases h : e.isRecord <;> simp [List.filter_cons, h, Nat.add_comm]

/-- Once the subscription is gone the cache no longer changes, and the store changes only by
appending the cache, once per record key. -/
theorem run_after_teardown (narrow : D → F) (es : List (Event D)) :
    ∀ (s s1 : Node F) (tr : List (Action F)), s.subscription_ = false →
      run narrow s es = .ok (s1, tr) →
      s1.saved_pose_list_ =
        s.saved_pose_list_ ++ List.replicate (recordCount es) s.current_pose_ ∧
      s1.saved_orientation_list_ =
        s.saved_orientation_list_ ++ List.replicate (recordCount es) s.current_orientation_ := by
  induction es with
  | nil =>
    intro s s1 tr _ h
    simp only [run_nil, Except.ok.injEq, Prod.mk.injEq] at h
    obtain ⟨rfl, -⟩ := h
    simp [recordCount]
  | cons e es ih =>
    intro s s1 tr hsub h
    rw [run_cons] at h
    cases hd : dispatch narrow s e with
    | error f => simp [hd] at h
    | ok r =>
      obtain ⟨s2, a2⟩ := r
      simp only [hd] at h
      cases hr : run narrow s2 es with
      | error f => simp [hr] at h
      | ok r2 =>
        obtain ⟨s3, a3⟩ := r2
        simp only [hr, Except.ok.injEq, Prod.mk.injEq] at h
        obtain ⟨rfl, -⟩ := h
        obtain ⟨hrec, hnrec, hfrozen, -, -⟩ := dispatch_frame hd
        obtain ⟨hsub2, hcp, hco⟩ := hfrozen hsub
        obtain ⟨hp, ho⟩ := ih s2 s3 a3 hsub2 hr
        rw [hp, ho, hcp, hco, recordCount_cons]
        cases hrc : e.isRecord with
        | true =>
          obtain ⟨rfl, -⟩ := hrec hrc
          simp [savePose, List.replicate_succ, Nat.add_comm 1]
        | false =>
          obtain ⟨h1, h2⟩ := hnrec hrc
          simp [h1, h2]

/-- C6, as stated, fails: one waypoint is recorded and the sequence is started; a later record
key still appends, so the store grows from one waypoint to two during playback. -/
theorem record_after_start_appends :
    storedAfter (fun d : Int => d) sampleNode [recordKey, startKey] = some [samplePose] ∧
    storedAfter (fun d : Int => d) sampleNode [recordKey, startKey, recordKey] =
      some [samplePose, samplePose] :=
  ⟨rfl, rfl⟩

/-- C6, amended: once a start key has begun playback on a non-empty store, the store changes
only through later record keys: after any further events the recorded positions and
orientations are those recorded at the start, in the same order, followed by one copy of the
pose cache (frozen since the start, as the subscription is gone) per later record key.  In
particular start keys, results and pose samples leave the store unchanged. -/
theorem store_after_start (narrow : D → F) (s0 s s1 : Node F) (a tr : List (Action F))
    (es : List (Event D)) (hne : s0.saved_pose_list_ ≠ [])
    (hstart : dispatch narrow s0 startKey = .ok (s, a))
    (hrun : run narrow s es = .ok (s1, tr)) :
    s1.saved_pose_list_ =
      s0.saved_pose_list_ ++ List.replicate (recordCount es) s0.current_pose_ ∧
    s1.saved_orientation_list_ =
      s0.saved_orientation_list_ ++
        List.replicate (recordCount es) s0.current_orientation_ ∧
    (recordCount es = 0 → s1.saved_pose_list_ = s0.saved_pose_list_ ∧
      s1.saved_orientation_list_ = s0.saved_orientation_list_) := by
  have hlen : s0.saved_pose_list_.length > 0 := List.length_pos.mpr hne
  have hs : s = { s0 with subscription_ := false } := by
    simp only [dispatch, startKey, handleKeyboardInput, KEY_r, KEY_s, ERR] at hstart
    simp only [hlen] at hstart
    exact (send_goal_inv (by simpa using hstart)).1
  have h := run_after_teardown narrow es s s1 tr (by rw [hs]) hrun
  rw [hs] at h
  refine ⟨h.1, h.2, ?_⟩
  intro h0
  simpa [h0] using h

theorem store_after_start_witness :
    (savePose sampleNode).saved_pose_list_ ≠ [] ∧
    (savePose { savePose sampleNode with subscription_ := false }).saved_pose_list_ =
      (savePose sampleNode).saved_pose_list_ ++
        List.replicate (recordCount ([succeeded, recordKey] : List (Event Int)))
          (savePose sampleNode).current_pose_ :=
  ⟨by decide,
   (store_after_start (fun d : Int => d) (savePose sampleNode)
      { savePose sampleNode with subscription_ := false }
      (savePose { savePose sampleNode with subscription_ := false })
      [Action.async_send_goal 0 samplePose sampleOrientation] []
      [succeeded, recordKey] (by decide) rfl rfl).1⟩

end Claims2
end PoseSubscriber
namespace PoseSubscriber
section Claims3
variable {F D : Type}

theorem getElem?_length_append_cons {α : Type} (l t : List α) (a : α) :
    (l ++ a :: t)[l.length]? = some a := by
  rw [List.getElem?_append_right (Nat.le_refl _)]
  simp

/-- The recording phase: pose samples and record keys never fault and never send anything;
they leave the index, the flag and the subscription alone and extend the two lists by one
entry per record key. -/
theorem run_recording (narrow : D → F) (es : List (Event D)) :
    ∀ s : Node F, (∀ e ∈ es, e.isRecording = true) →
      ∃ (s1 : Node F) (tp : List (Pose F)) (tq : List (Orientation F)),
        run narrow s es = .ok (s1, []) ∧
        s1.saved_pose_list_ = s.saved_pose_list_ ++ tp ∧
        s1.saved_orientation_list_ = s.saved_orientation_list_ ++ tq ∧
        tp.length = recordCount es ∧ tq.length = recordCount es ∧
        s1.head_pose_index_ = s.head_pose_index_ ∧
        s1.first_pose8_ = s.first_pose8_ ∧
        s1.subscription_ = s.subscription_ := by
  induction es with
  | nil =>
    intro s _
    exact ⟨s, [], [], rfl, by simp, by simp, rfl, rfl, rfl, rfl, rfl⟩
  | cons e es ih =>
    intro s hall
    have he : e.isRecording = true := hall e (List.mem_cons_self _ _)
    have hes : ∀ x ∈ es, x.isRecording = true := fun x hx => hall x (List.mem_cons_of_mem _ hx)
    cases e with
    | odom msg =>
      by_cases hsub : s.subscription_ = true
      · obtain ⟨s1, tp, tq, h1, h2, h3, h4, h5, h6, h7, h8⟩ := ih (listenerCallback narrow s msg) hes
        refine ⟨s1, tp, tq, ?_, h2, h3, ?_, ?_, h6, h7, h8⟩
        · rw [run_cons]
          simp [dispatch, hsub, h1]
        · rw [h4, recordCount_cons]; simp [Event.isRecord]
        · rw [h5, recordCount_cons]; simp [Event.isRecord]
      · obtain ⟨s1, tp, tq, h1, h2, h3, h4, h5, h6, h7, h8⟩ := ih s hes
        refine ⟨s1, tp, tq, ?_, h2, h3, ?_, ?_, h6, h7, h8⟩
        · rw [run_cons]
          simp [dispatch, hsub, h1]
        · rw [h4, recordCount_cons]; simp [Event.isRecord]
        · rw [h5, recordCount_cons]; simp [Event.isRecord]
    | timer ch =>
      have hch : ch = KEY_s := by simpa [Event.isRecording] using he
      subst hch
      obtain ⟨s1, tp, tq, h1, h2, h3, h4, h5, h6, h7, h8⟩ := ih (savePose s) hes
      refine ⟨s1, s.current_pose_ :: tp, s.current_orientation_ :: tq, ?_, ?_, ?_, ?_, ?_,
        h6, h7, h8⟩
      · rw [run_cons]
        simp [dispatch, handleKeyboardInput, KEY_s, ERR, h1]
      · rw [h2]; simp [savePose]
      · rw [h3]; simp [savePose]
      · rw [recordCount_cons]; simp [Event.isRecord, h4, Nat.add_comm]
      · rw [recordCount_cons]; simp [Event.isRecord, h5, Nat.add_comm]
    | result code => simp [Event.isRecording] at he

/-- C9: from the freshly constructed node, after any interleaving `es` of pose samples and
record keys the run has not faulted, has sent nothing, and both recorded lists hold exactly as
many entries as there were record keys.  Whatever recording events `more` follow, the entries
present after `es` are still there, unchanged and in place; and if the next event is a record
key, the entry at position `recordCount es` of each list is the cache content at that
moment. -/
theorem recording_preserves_count_and_order (narrow : D → F) (p0 : Pose F)
    (o0 : Orientation F) (es more : List (Event D))
    (hes : ∀ e ∈ es, e.isRecording = true) (hmore : ∀ e ∈ more, e.isRecording = true) :
    ∃ s1 s2 : Node F,
      run narrow (init p0 o0) es = .ok (s1, []) ∧
      run narrow (init p0 o0) (es ++ more) = .ok (s2, []) ∧
      s1.saved_pose_list_.length = recordCount es ∧
      s1.saved_orientation_list_.length = recordCount es ∧
      (∃ t, s2.saved_pose_list_ = s1.saved_pose_list_ ++ t) ∧
      (∃ t, s2.saved_orientation_list_ = s1.saved_orientation_list_ ++ t) ∧
      (∀ rest, more = recordKey :: rest →
        s2.saved_pose_list_[recordCount es]? = some s1.current_pose_ ∧
        s2.saved_orientation_list_[recordCount es]? = some s1.current_orientation_) := by
  obtain ⟨s1, tp, tq, h1, h2, h3, h4, h5, -, -, -⟩ := run_recording narrow es (init p0 o0) hes
  obtain ⟨s2, tp2, tq2, k1, k2, k3, -, -, -, -, -⟩ := run_recording narrow more s1 hmore
  have hl1 : s1.saved_pose_list_.length = recordCount es := by
    rw [h2]; simp [init, h4]
  have hl2 : s1.saved_orientation_list_.length = recordCount es := by
    rw [h3]; simp [init, h5]
  refine ⟨s1, s2, h1, ?_, hl1, hl2, ⟨tp2, k2⟩, ⟨tq2, k3⟩, ?_⟩
  · rw [run_append, h1]
    simp [k1]
  · intro rest hrest
    subst hrest
    have hrest : ∀ e ∈ rest, e.isRecording = true :=
      fun x hx => hmore x (List.mem_cons_of_mem _ hx)
    obtain ⟨s3, tp3, tq3, m1, m2, m3, -, -, -, -, -⟩ :=
      run_recording narrow rest (savePose s1) hrest
    have hk : run narrow s1 (recordKey :: rest) = .ok (s3, []) := by
      rw [run_cons]
      simp [dispatch, recordKey, handleKeyboardInput, KEY_s, ERR, m1]
    rw [hk] at k1
    simp only [Except.ok.injEq, Prod.mk.injEq, and_true] at k1
    subst k1
    rw [m2, m3, ← hl1]
    constructor
    · simp only [savePose, List.append_assoc, List.singleton_append]
      exact getElem?_length_append_cons _ _ _
    · rw [hl1, ← hl2]
      simp only [savePose, List.append_assoc, List.singleton_append]
      exact getElem?_length_append_cons _ _ _

theorem recording_preserves_count_and_order_witness :
    ∃ s1 s2 : Node Int,
      run (fun d : Int => d) (init samplePose sampleOrientation) firstSession = .ok (s1, []) ∧
      run (fun d : Int => d) (init samplePose sampleOrientation)
        (firstSession ++ secondSession) = .ok (s2, []) ∧
      s1.saved_pose_list_.length = recordCount firstSession ∧
      s1.saved_orientation_list_.length = recordCount firstSession ∧
      (∃ t, s2.saved_pose_list_ = s1.saved_pose_list_ ++ t) ∧
      (∃ t, s2.saved_orientation_list_ = s1.saved_orientation_list_ ++ t) ∧
      (∀ rest, secondSession = recordKey :: rest →
        s2.saved_pose_list_[recordCount firstSession]? = some s1.current_pose_ ∧
        s2.saved_orientation_list_[recordCount firstSession]? =
          some s1.current_orientation_) :=
  recording_preserves_count_and_order (fun d : Int => d) samplePose sampleOrientation
    firstSession secondSession (by decide) (by decide)

end Claims3
end PoseSubscriber
namespace PoseSubscriber
section Claims4
variable {F D : Type}

/-- One playback callback keeps the index inside a store whose size is neither 7 nor 9. -/
theorem dispatch_playback_in_range (narrow : D → F) (n : Nat) (s : Node F) (e : Event D)
    (h7 : n ≠ 7) (h9 : n ≠ 9)
    (hp : s.saved_pose_list_.length = n) (ho : s.saved_orientation_list_.length = n)
    (hh : s.head_pose_index_ < n) (he : e.isPlayback = true) :
    ∃ (s1 : Node F) (a : List (Action F)),
      dispatch narrow s e = .ok (s1, a) ∧
      s1.saved_pose_list_.length = n ∧ s1.saved_orientation_list_.length = n ∧
      s1.head_pose_index_ < n ∧ ∀ i ∈ sentIndices a, i < n := by
  cases e with
  | odom msg => simp [Event.isPlayback] at he
  | timer ch =>
    have hch : ch = KEY_r := by simpa [Event.isPlayback] using he
    subst hch
    have hpos : s.saved_pose_list_.length > 0 := by omega
    obtain ⟨p, o, hg⟩ := send_goal_of_lt { s with subscription_ := false }
      (by simpa [hp] using hh) (by simpa [ho] using hh)
    refine ⟨{ s with subscription_ := false },
      [Action.async_send_goal s.head_pose_index_ p o], ?_, hp, ho, hh, ?_⟩
    · simp only [dispatch, handleKeyboardInput, KEY_r, KEY_s, ERR]
      simpa [hpos] using hg
    · intro i hi
      simp only [sentIndices, List.filterMap_cons, Action.goalIndex, List.filterMap_nil,
        List.mem_singleton] at hi
      omega
  | result code =>
    cases code with
    | UNKNOWN => exact ⟨s, [], rfl, hp, ho, hh, by simp [sentIndices]⟩
    | CANCELED => exact ⟨s, [], rfl, hp, ho, hh, by simp [sentIndices]⟩
    | ABORTED => exact ⟨s, [], rfl, hp, ho, hh, by simp [sentIndices]⟩
    | SUCCEEDED =>
      simp only [dispatch, result_callback]
      split_ifs with c1 c2 c3 c4 c5
      · obtain ⟨p, o, hg⟩ := thenSendGoal_of_lt [Action.sleep 5]
          { s with head_pose_index_ := (s.head_pose_index_ + 1) % SIZE_T_MOD }
          (by simp only [hp, SIZE_T_MOD]; omega) (by simp only [ho, SIZE_T_MOD]; omega)
        refine ⟨_, _, hg, hp, ho, by simp only [SIZE_T_MOD]; omega, ?_⟩
        intro i hi
        simp [sentIndices, Action.goalIndex, SIZE_T_MOD] at hi
        omega
      · obtain ⟨p, o, hg⟩ := thenSendGoal_of_lt [Action.sleep 2]
          { s with
            first_pose8_ := true
            head_pose_index_ := (s.head_pose_index_ + 1) % SIZE_T_MOD }
          (by simp only [hp, SIZE_T_MOD]; omega) (by simp only [ho, SIZE_T_MOD]; omega)
        refine ⟨_, _, hg, hp, ho, by simp only [SIZE_T_MOD]; omega, ?_⟩
        intro i hi
        simp [sentIndices, Action.goalIndex, SIZE_T_MOD] at hi
        omega
      · exact ⟨s, [], rfl, hp, ho, hh, by simp [sentIndices]⟩
      · have hlt : (s.head_pose_index_ + 1) % SIZE_T_MOD < n := by
          simp only [hp, SIZE_T_MOD] at c4 ⊢
          omega
        obtain ⟨p, o, hg⟩ := thenSendGoal_of_lt []
          { s with head_pose_index_ := (s.head_pose_index_ + 1) % SIZE_T_MOD }
          (by simpa [hp] using hlt) (by simpa [ho] using hlt)
        refine ⟨_, _, hg, hp, ho, hlt, ?_⟩
        intro i hi
        simp only [sentIndices, Action.goalIndex, List.nil_append, List.filterMap_cons,
          List.filterMap_nil, List.mem_singleton] at hi
        rw [hi]
        exact hlt
      · have hlt : 8 < n := by omega
        obtain ⟨p, o, hg⟩ := thenSendGoal_of_lt [] { s with head_pose_index_ := 8 }
          (by simpa [hp] using hlt) (by simpa [ho] using hlt)
        refine ⟨_, _, hg, hp, ho, hlt, ?_⟩
        intro i hi
        simp only [sentIndices, Action.goalIndex, List.nil_append, List.filterMap_cons,
          List.filterMap_nil, List.mem_singleton] at hi
        rw [hi]
        exact hlt
      · have hlt : 0 < n := by omega
        obtain ⟨p, o, hg⟩ := thenSendGoal_of_lt [] { s with head_pose_index_ := 0 }
          (by simpa [hp] using hlt) (by simpa [ho] using hlt)
        refine ⟨_, _, hg, hp, ho, hlt, ?_⟩
        intro i hi
        simp only [sentIndices, Action.goalIndex, List.nil_append, List.filterMap_cons,
          List.filterMap_nil, List.mem_singleton] at hi
        rw [hi]
        exact hlt

theorem run_playback_in_range (narrow : D → F) (n : Nat) (h7 : n ≠ 7) (h9 : n ≠ 9)
    (es : List (Event D)) :
    ∀ s : Node F, s.saved_pose_list_.length = n → s.saved_orientation_list_.length = n →
      s.head_pose_index_ < n → (∀ e ∈ es, e.isPlayback = true) →
      ∃ (s1 : Node F) (tr : List (Action F)),
        run narrow s es = .ok (s1, tr) ∧
        s1.saved_pose_list_.length = n ∧ s1.saved_orientation_list_.length = n ∧
        s1.head_pose_index_ < n ∧ ∀ i ∈ sentIndices tr, i < n := by
  induction es with
  | nil =>
    intro s hp ho hh _
    exact ⟨s, [], rfl, hp, ho, hh, by simp [sentIndices]⟩
  | cons e es ih =>
    intro s hp ho hh hall
    obtain ⟨s1, a1, hd, hp1, ho1, hh1, hi1⟩ := dispatch_playback_in_range narrow n s e h7 h9
      hp ho hh (hall e (List.mem_cons_self _ _))
    obtain ⟨s2, a2, hr, hp2, ho2, hh2, hi2⟩ := ih s1 hp1 ho1 hh1
      (fun x hx => hall x (List.mem_cons_of_mem _ hx))
    refine ⟨s2, a1 ++ a2, ?_, hp2, ho2, hh2, ?_⟩
    · rw [run_cons, hd]
      simp [hr]
    · intro i hi
      rw [sentIndices_append, List.mem_append] at hi
      rcases hi with hi | hi
      · exact hi1 i hi
      · exact hi2 i hi

/-- C10: let n waypoints be recorded on a freshly constructed node (any interleaving `rec` of
pose samples and record keys with n record keys), n at least 1 and neither 7 nor 9.  Then for
every finite sequence `es` of start keys and navigation results the run does not fault, the
store still holds n positions and n orientations, `head_pose_index_` is below n at the end,
and every goal sent was read at an index below n.  As `es` ranges over all such sequences,
this holds after every step. -/
theorem in_bounds_outside_sizes_7_and_9 (narrow : D → F) (p0 : Pose F) (o0 : Orientation F)
    (n : Nat) (rec es : List (Event D))
    (hrec : ∀ e ∈ rec, e.isRecording = true) (hn : recordCount rec = n)
    (h1 : 1 ≤ n) (h7 : n ≠ 7) (h9 : n ≠ 9) (hes : ∀ e ∈ es, e.isPlayback = true) :
    ∃ (s1 : Node F) (tr : List (Action F)),
      run narrow (init p0 o0) (rec ++ es) = .ok (s1, tr) ∧
      s1.saved_pose_list_.length = n ∧ s1.saved_orientation_list_.length = n ∧
      s1.head_pose_index_ < n ∧ ∀ i ∈ sentIndices tr, i < n := by
  obtain ⟨s0, tp, tq, r1, r2, r3, r4, r5, r6, -, -⟩ := run_recording narrow rec (init p0 o0) hrec
  have hp : s0.saved_pose_list_.length = n := by rw [r2]; simp [init, r4, hn]
  have ho : s0.saved_orientation_list_.length = n := by rw [r3]; simp [init, r5, hn]
  have hh : s0.head_pose_index_ < n := by rw [r6]; simp only [init]; omega
  obtain ⟨s1, tr, hr, k1, k2, k3, k4⟩ := run_playback_in_range narrow n h7 h9 es s0 hp ho hh hes
  refine ⟨s1, tr, ?_, k1, k2, k3, k4⟩
  rw [run_append, r1]
  simp [hr]

theorem in_bounds_outside_sizes_7_and_9_witness :
    ∃ (s1 : Node Int) (tr : List (Action Int)),
      run (fun d : Int => d) (init samplePose sampleOrientation)
        (records 8 ++ (startKey :: successes 20)) = .ok (s1, tr) ∧
      s1.saved_pose_list_.length = 8 ∧ s1.saved_orientation_list_.length = 8 ∧
      s1.head_pose_index_ < 8 ∧ ∀ i ∈ sentIndices tr, i < 8 :=
  in_bounds_outside_sizes_7_and_9 (fun d : Int => d) samplePose sampleOrientation 8
    (records 8) (startKey :: successes 20) (by decide) (by decide) (by decide) (by decide)
    (by decide) (by decide)

end Claims4
end PoseSubscriber
namespace PoseSubscriber
section Claims5
variable {F D : Type}

/-- The start key on a store of n waypoints with the index in range sends the goal at the
index and changes nothing but the subscription. -/
theorem start_in_range (narrow : D → F) (n : Nat) (s : Node F)
    (hp : s.saved_pose_list_.length = n) (ho : s.saved_orientation_list_.length = n)
    (hh : s.head_pose_index_ < n) :
    ∃ (s1 : Node F) (a : List (Action F)),
      run narrow s [startKey] = .ok (s1, a) ∧
      s1.saved_pose_list_.length = n ∧ s1.saved_orientation_list_.length = n ∧
      s1.head_pose_index_ = s.head_pose_index_ ∧ s1.first_pose8_ = s.first_pose8_ ∧
      a.map Action.kind = [Kind.goal s.head_pose_index_] := by
  have hpos : s.saved_pose_list_.length > 0 := by omega
  obtain ⟨p, o, hg⟩ := send_goal_of_lt { s with subscription_ := false }
    (by simpa [hp] using hh) (by simpa [ho] using hh)
  refine ⟨{ s with subscription_ := false },
    [Action.async_send_goal s.head_pose_index_ p o], ?_, hp, ho, rfl, rfl, rfl⟩
  rw [run_single]
  simp only [dispatch, startKey, handleKeyboardInput, KEY_r, KEY_s, ERR]
  simp [hpos, hg]

theorem sentIndices_of_kind (a : List (Action F)) :
    sentIndices a = (a.map Action.kind).filterMap
      (fun k => match k with | Kind.goal i => some i | _ => none) := by
  induction a with
  | nil => rfl
  | cons x xs ih =>
    cases x <;> simp [sentIndices, Action.goalIndex, Action.kind] at ih ⊢ <;> exact ih

theorem pauses_of_kind (a : List (Action F)) :
    pauses a = (a.map Action.kind).filterMap
      (fun k => match k with | Kind.pause i => some i | _ => none) := by
  induction a with
  | nil => rfl
  | cons x xs ih =>
    cases x <;> simp [pauses, Action.pauseSecs, Action.kind] at ih ⊢ <;> exact ih

/-- A success on a store of 2 to 6 waypoints: the index advances modulo the size, one goal is
sent for it, without a pause. -/
theorem success_short (n : Nat) (h2 : 2 ≤ n) (h6 : n ≤ 6) (s : Node F)
    (hp : s.saved_pose_list_.length = n) (ho : s.saved_orientation_list_.length = n)
    (hh : s.head_pose_index_ < n) :
    ∃ (s1 : Node F) (a : List (Action F)),
      result_callback s ResultCode.SUCCEEDED = .ok (s1, a) ∧
      s1.saved_pose_list_.length = n ∧ s1.saved_orientation_list_.length = n ∧
      s1.head_pose_index_ = (s.head_pose_index_ + 1) % n ∧
      a.map Action.kind = [Kind.goal ((s.head_pose_index_ + 1) % n)] := by
  simp only [result_callback]
  split_ifs with c1 c2 c3 c4 c5
  · omega
  · omega
  · omega
  · have hlt : s.head_pose_index_ + 1 < n := by
      simp only [hp, SIZE_T_MOD] at c4
      omega
    have hm : (s.head_pose_index_ + 1) % SIZE_T_MOD = (s.head_pose_index_ + 1) % n := by
      rw [Nat.mod_eq_of_lt hlt]
      simp only [SIZE_T_MOD]
      omega
    obtain ⟨p, o, hg⟩ := thenSendGoal_of_lt []
      { s with head_pose_index_ := (s.head_pose_index_ + 1) % SIZE_T_MOD }
      (by simp only [hp, hm]; exact Nat.mod_lt _ (by omega))
      (by simp only [ho, hm]; exact Nat.mod_lt _ (by omega))
    exact ⟨_, _, hg, hp, ho, hm, by simp [Action.kind, hm]⟩
  · omega
  · have heq : s.head_pose_index_ + 1 = n := by
      simp only [hp, SIZE_T_MOD] at c4
      omega
    have hm : 0 = (s.head_pose_index_ + 1) % n := by rw [heq, Nat.mod_self]
    obtain ⟨p, o, hg⟩ := thenSendGoal_of_lt [] { s with head_pose_index_ := 0 }
      (by simp only [hp]; omega) (by simp only [ho]; omega)
    exact ⟨_, _, hg, hp, ho, hm, by simp [Action.kind, ← hm]⟩

theorem playback_short (narrow : D → F) (n : Nat) (h2 : 2 ≤ n) (h6 : n ≤ 6) (s : Node F)
    (hp : s.saved_pose_list_.length = n) (ho : s.saved_orientation_list_.length = n)
    (hh : s.head_pose_index_ = 0) (m : Nat) :
    ∃ (s1 : Node F) (tr : List (Action F)),
      run narrow s (startKey :: List.replicate m succeeded) = .ok (s1, tr) ∧
      s1.saved_pose_list_.length = n ∧ s1.saved_orientation_list_.length = n ∧
      s1.head_pose_index_ = m % n ∧
      tr.map Action.kind = (List.range (m + 1)).map (fun k => Kind.goal (k % n)) := by
  induction m with
  | zero =>
    obtain ⟨s1, a, h1, k1, k2, k3, -, k5⟩ := start_in_range narrow n s hp ho (by omega)
    refine ⟨s1, a, h1, k1, k2, ?_, ?_⟩
    · rw [k3, hh, Nat.zero_mod]
    · rw [k5, hh]
      simp [List.range_succ]
  | succ m ih =>
    obtain ⟨s1, tr, h1, k1, k2, k3, k4⟩ := ih
    obtain ⟨s2, a, g1, g2, g3, g4, g5⟩ := success_short n h2 h6 s1 k1 k2
      (by rw [k3]; exact Nat.mod_lt _ (by omega))
    refine ⟨s2, tr ++ a, ?_, g2, g3, ?_, ?_⟩
    · rw [List.replicate_succ', ← List.cons_append, run_append, h1]
      simp only
      rw [run_single]
      simp only [succeeded, dispatch, g1]
    · rw [g4, k3, Nat.mod_add_mod]
    · rw [List.map_append, k4, g5, k3, Nat.mod_add_mod, List.range_succ (n := m + 1),
        List.map_append]
      rfl

/-- C8: let n waypoints be recorded on a freshly constructed node, 2 ≤ n ≤ 6 (any interleaving
`rec` of pose samples and record keys with n record keys).  A start key followed by m
successes, for every m, does not fault; the goals sent are those for the indices
0 mod n, 1 mod n, ..., m mod n in this order, and no pause occurs. -/
theorem short_sequences_loop_from_zero (narrow : D → F) (p0 : Pose F) (o0 : Orientation F)
    (n : Nat) (rec : List (Event D)) (hrec : ∀ e ∈ rec, e.isRecording = true)
    (hn : recordCount rec = n) (h2 : 2 ≤ n) (h6 : n ≤ 6) (m : Nat) :
    ∃ (s1 : Node F) (tr : List (Action F)),
      run narrow (init p0 o0) (rec ++ startKey :: List.replicate m succeeded) = .ok (s1, tr) ∧
      sentIndices tr = (List.range (m + 1)).map (fun k => k % n) ∧
      pauses tr = [] := by
  obtain ⟨s0, tp, tq, r1, r2, r3, r4, r5, r6, -, -⟩ := run_recording narrow rec (init p0 o0) hrec
  have hp : s0.saved_pose_list_.length = n := by rw [r2]; simp [init, r4, hn]
  have ho : s0.saved_orientation_list_.length = n := by rw [r3]; simp [init, r5, hn]
  obtain ⟨s1, tr, h1, -, -, -, k4⟩ := playback_short narrow n h2 h6 s0 hp ho (by rw [r6]; rfl) m
  refine ⟨s1, tr, ?_, ?_, ?_⟩
  · rw [run_append, r1]
    simp [h1]
  · rw [sentIndices_of_kind, k4, List.filterMap_map]
    rw [← List.filterMap_eq_map]
    rfl
  · rw [pauses_of_kind, k4, List.filterMap_map]
    simp [List.filterMap_eq_nil_iff]

theorem short_sequences_loop_from_zero_witness :
    ∃ (s1 : Node Int) (tr : List (Action Int)),
      run (fun d : Int => d) (init samplePose sampleOrientation)
        (records 5 ++ startKey :: List.replicate 7 succeeded) = .ok (s1, tr) ∧
      sentIndices tr = (List.range (7 + 1)).map (fun k => k % 5) ∧
      pauses tr = [] :=
  short_sequences_loop_from_zero (fun d : Int => d) samplePose sampleOrientation 5 (records 5)
    (by decide) (by decide) (by decide) (by decide) 7

end Claims5
end PoseSubscriber
namespace PoseSubscriber
section Claims6
variable {F D : Type}

theorem index10_cases (m : Nat) :
    (m < 10 ∧ index10 m = m) ∨ (10 ≤ m ∧ m % 2 = 0 ∧ index10 m = 8) ∨
      (10 ≤ m ∧ m % 2 = 1 ∧ index10 m = 9) := by
  unfold index10
  split_ifs <;> omega

theorem leg10_goals (m : Nat) :
    (leg10 m).filterMap (fun k => match k with | Kind.goal i => some i | _ => none) =
      [index10 (m + 1)] := by
  unfold leg10
  split_ifs with h6 h8
  · subst h6; rfl
  · subst h8; rfl
  · rfl

theorem leg10_pauses (m : Nat) :
    (leg10 m).filterMap (fun k => match k with | Kind.pause i => some i | _ => none) =
      if m = 6 then [5] else if m = 8 then [2] else [] := by
  unfold leg10
  split_ifs <;> rfl

theorem trace10_goals (m : Nat) :
    (trace10 m).filterMap (fun k => match k with | Kind.goal i => some i | _ => none) =
      (List.range (m + 1)).map index10 := by
  induction m with
  | zero => rfl
  | succ m ih =>
    rw [trace10, List.filterMap_append, ih, leg10_goals, List.range_succ (n := m + 1),
      List.map_append]
    rfl

theorem trace10_pauses (m : Nat) :
    (trace10 m).filterMap (fun k => match k with | Kind.pause i => some i | _ => none) =
      (if 7 ≤ m then [5] else []) ++ (if 9 ≤ m then [2] else []) := by
  induction m with
  | zero => rfl
  | succ m ih =>
    rw [trace10, List.filterMap_append, ih, leg10_pauses]
    by_cases h6 : m = 6
    · subst h6; rfl
    · by_cases h8 : m = 8
      · subst h8; rfl
      · rw [if_neg h6, if_neg h8, List.append_nil]
        have e7 : (7 ≤ m + 1) = (7 ≤ m) := by
          apply propext; constructor <;> intro h <;> omega
        have e9 : (9 ≤ m + 1) = (9 ≤ m) := by
          apply propext; constructor <;> intro h <;> omega
        simp only [e7, e9]

/-- A success during the all-successful run over ten waypoints, after m earlier successes. -/
theorem success_ten (m : Nat) (s : Node F)
    (hp : s.saved_pose_list_.length = 10) (ho : s.saved_orientation_list_.length = 10)
    (hh : s.head_pose_index_ = index10 m) (hf : s.first_pose8_ = decide (9 ≤ m)) :
    ∃ (s1 : Node F) (a : List (Action F)),
      result_callback s ResultCode.SUCCEEDED = .ok (s1, a) ∧
      s1.saved_pose_list_.length = 10 ∧ s1.saved_orientation_list_.length = 10 ∧
      s1.head_pose_index_ = index10 (m + 1) ∧ s1.first_pose8_ = decide (9 ≤ m + 1) ∧
      a.map Action.kind = leg10 m := by
  have hm := index10_cases m
  have hm1 := index10_cases (m + 1)
  simp only [result_callback]
  split_ifs with c1 c2 c3 c4 c5
  · have h6 : m = 6 := by omega
    subst h6
    have hnew : (s.head_pose_index_ + 1) % SIZE_T_MOD = 7 := by rw [c1]; rfl
    obtain ⟨p, o, hg⟩ := thenSendGoal_of_lt [Action.sleep 5]
      { s with head_pose_index_ := (s.head_pose_index_ + 1) % SIZE_T_MOD }
      (by simp only [hp, hnew]; omega) (by simp only [ho, hnew]; omega)
    refine ⟨_, _, hg, hp, ho, hnew, ?_, ?_⟩
    · simp [hf]
    · simp [Action.kind, hnew, leg10]
  · have h8 : m = 8 := by
      have hlt : ¬ 9 ≤ m := by
        intro h9
        rw [hf] at c2
        simp [h9] at c2
      omega
    subst h8
    have hnew : (s.head_pose_index_ + 1) % SIZE_T_MOD = 9 := by rw [c2.1]; rfl
    obtain ⟨p, o, hg⟩ := thenSendGoal_of_lt [Action.sleep 2]
      { s with
        first_pose8_ := true
        head_pose_index_ := (s.head_pose_index_ + 1) % SIZE_T_MOD }
      (by simp only [hp, hnew]; omega) (by simp only [ho, hnew]; omega)
    refine ⟨_, _, hg, hp, ho, hnew, ?_, ?_⟩
    · simp
    · simp [Action.kind, hnew, leg10]
  · omega
  · have hlt : s.head_pose_index_ < 9 := by
      simp only [hp, SIZE_T_MOD] at c4
      omega
    have hm6 : m ≠ 6 := by omega
    have hm8 : m ≠ 8 := by
      intro h8
      subst h8
      apply c2
      refine ⟨by omega, ?_⟩
      rw [hf]
      decide
    have hnew : (s.head_pose_index_ + 1) % SIZE_T_MOD = index10 (m + 1) := by
      simp only [SIZE_T_MOD]
      omega
    have hflag : decide (9 ≤ m) = decide (9 ≤ m + 1) := by
      have : (9 ≤ m) ↔ (9 ≤ m + 1) := by omega
      simp only [this]
    obtain ⟨p, o, hg⟩ := thenSendGoal_of_lt []
      { s with head_pose_index_ := (s.head_pose_index_ + 1) % SIZE_T_MOD }
      (by simp only [hp, hnew]; omega) (by simp only [ho, hnew]; omega)
    refine ⟨_, _, hg, hp, ho, hnew, ?_, ?_⟩
    · simp only [hf, hflag]
    · simp [Action.kind, hnew, leg10, hm6, hm8]
  · have hge : 9 ≤ s.head_pose_index_ := by
      simp only [hp, SIZE_T_MOD] at c4
      omega
    have hm6 : m ≠ 6 := by omega
    have hm8 : m ≠ 8 := by omega
    have hnew : 8 = index10 (m + 1) := by omega
    have hflag : decide (9 ≤ m) = decide (9 ≤ m + 1) := by
      have h1 : 9 ≤ m := by omega
      have h2 : 9 ≤ m + 1 := by omega
      simp only [h1, h2]
    obtain ⟨p, o, hg⟩ := thenSendGoal_of_lt [] { s with head_pose_index_ := 8 }
      (by simp only [hp]; omega) (by simp only [ho]; omega)
    refine ⟨_, _, hg, hp, ho, hnew, ?_, ?_⟩
    · simp only [hf, hflag]
    · simp [Action.kind, ← hnew, leg10, hm6, hm8]
  · omega

theorem playback_ten (narrow : D → F) (s : Node F)
    (hp : s.saved_pose_list_.length = 10) (ho : s.saved_orientation_list_.length = 10)
    (hh : s.head_pose_index_ = 0) (hf : s.first_pose8_ = false) (m : Nat) :
    ∃ (s1 : Node F) (tr : List (Action F)),
      run narrow s (startKey :: List.replicate m succeeded) = .ok (s1, tr) ∧
      s1.saved_pose_list_.length = 10 ∧ s1.saved_orientation_list_.length = 10 ∧
      s1.head_pose_index_ = index10 m ∧ s1.first_pose8_ = decide (9 ≤ m) ∧
      tr.map Action.kind = trace10 m := by
  induction m with
  | zero =>
    obtain ⟨s1, a, h1, k1, k2, k3, k4, k5⟩ := start_in_range narrow 10 s hp ho (by omega)
    refine ⟨s1, a, h1, k1, k2, ?_, ?_, ?_⟩
    · rw [k3, hh]; rfl
    · rw [k4, hf]; rfl
    · rw [k5, hh]; rfl
  | succ m ih =>
    obtain ⟨s1, tr, h1, k1, k2, k3, k4, k5⟩ := ih
    obtain ⟨s2, a, g1, g2, g3, g4, g5, g6⟩ := success_ten m s1 k1 k2 k3 k4
    refine ⟨s2, tr ++ a, ?_, g2, g3, g4, g5, ?_⟩
    · rw [List.replicate_succ', ← List.cons_append, run_append, h1]
      simp only
      rw [run_single]
      simp only [succeeded, dispatch, g1]
    · rw [List.map_append, k5, g6, trace10]

/-- C2: let ten waypoints be recorded on a freshly constructed node (any interleaving `rec` of
pose samples and record keys with ten record keys).  A start key followed by m successes, for
every m, does not fault, and its actions are, in order, those of `trace10 m`: the goal for
index 0, then per success the next goal, preceded by a five second pause after the success at
index 6 and by a two second pause after the first success at index 8.  The k-th goal sent is
the one for `index10 k`: k below 10, then 8 for even k and 9 for odd k.  The pauses of the
whole run are the five second one (once seven successes have arrived) and then the two second
one (once nine have arrived), each exactly once however large m is. -/
theorem ten_waypoints_trace (narrow : D → F) (p0 : Pose F) (o0 : Orientation F)
    (rec : List (Event D)) (hrec : ∀ e ∈ rec, e.isRecording = true)
    (hn : recordCount rec = 10) (m : Nat) :
    ∃ (s1 : Node F) (tr : List (Action F)),
      run narrow (init p0 o0) (rec ++ startKey :: List.replicate m succeeded) = .ok (s1, tr) ∧
      tr.map Action.kind = trace10 m ∧
      sentIndices tr = (List.range (m + 1)).map index10 ∧
      (∀ k, 10 ≤ k → k ≤ m → (sentIndices tr)[k]? = some (if k % 2 = 0 then 8 else 9)) ∧
      pauses tr = (if 7 ≤ m then [5] else []) ++ (if 9 ≤ m then [2] else []) := by
  obtain ⟨s0, tp, tq, r1, r2, r3, r4, r5, r6, r7, -⟩ := run_recording narrow rec (init p0 o0) hrec
  have hp : s0.saved_pose_list_.length = 10 := by rw [r2]; simp [init, r4, hn]
  have ho : s0.saved_orientation_list_.length = 10 := by rw [r3]; simp [init, r5, hn]
  obtain ⟨s1, tr, h1, -, -, -, -, k⟩ :=
    playback_ten narrow s0 hp ho (by rw [r6]; rfl) (by rw [r7]; rfl) m
  have hsent : sentIndices tr = (List.range (m + 1)).map index10 := by
    rw [sentIndices_of_kind, k, trace10_goals]
  refine ⟨s1, tr, ?_, k, hsent, ?_, ?_⟩
  · rw [run_append, r1]
    simp [h1]
  · intro j h10 hjm
    rw [hsent, List.getElem?_map, List.getElem?_range (by omega)]
    simp only [Option.map_some', index10]
    rw [if_neg (by omega)]
  · rw [pauses_of_kind, k, trace10_pauses]

theorem ten_waypoints_trace_witness :
    ∃ (s1 : Node Int) (tr : List (Action Int)),
      run (fun d : Int => d) (init samplePose sampleOrientation)
        (records 10 ++ startKey :: List.replicate 13 succeeded) = .ok (s1, tr) ∧
      tr.map Action.kind = trace10 13 ∧
      sentIndices tr = (List.range (13 + 1)).map index10 ∧
      (∀ k, 10 ≤ k → k ≤ 13 → (sentIndices tr)[k]? = some (if k % 2 = 0 then 8 else 9)) ∧
      pauses tr = (if 7 ≤ 13 then [5] else []) ++ (if 9 ≤ 13 then [2] else []) :=
  ten_waypoints_trace (fun d : Int => d) samplePose sampleOrientation (records 10)
    (by decide) (by decide) 13

end Claims6
end PoseSubscriber
